import Mathlib

/-!
Verification of the core of `waveshare-epaper-2in13-rs-server`:
the 1-bit framebuffer `MonoImage` (src/buffer.rs) and the panel driver
`Epd2in13V4` (src/epd2in13_v4.rs), shallowly embedded in Lean.

Bytes are modelled as `Nat` values (< 256 on every reachable buffer);
the driver's bus traffic (SPI writes, GPIO line changes, sleeps, busy-line
reads) is modelled as an explicit event trace, and the busy input line as
a list of boolean readings consumed by the busy-wait loop.
-/

namespace Epd

/-- `embedded_graphics::pixelcolor::BinaryColor`: `Off` is white/background,
`On` is black/foreground. -/
inductive BinaryColor where
  | Off
  | On
deriving DecidableEq, Repr

/-- `MonoImage` from src/buffer.rs: a 1-bit framebuffer, row-major,
MSB-first, one `Nat` per byte of the Rust `Vec<u8>`. -/
structure MonoImage where
  width : Nat
  height : Nat
  bytes_per_row : Nat
  data : List Nat
deriving DecidableEq, Repr

namespace MonoImage

/-- `MonoImage::new`: `bytes_per_row = (width + 7) / 8`,
store of `bytes_per_row * height` bytes all `0xFF`. -/
def new (width height : Nat) : MonoImage :=
  let bytes_per_row := (width + 7) / 8
  let len := bytes_per_row * height
  { width := width
    height := height
    bytes_per_row := bytes_per_row
    data := List.replicate len 0xFF }

/-- `MonoImage::clear`: fill the whole store with `0xFF` for `Off`
(background) and `0x00` for `On` (foreground); `Vec::fill` keeps length. -/
def clear (img : MonoImage) (color : BinaryColor) : MonoImage :=
  let fill := if color = BinaryColor.Off then 0xFF else 0x00
  { img with data := List.replicate img.data.length fill }

/-- `MonoImage::set_pixel`: out-of-bounds writes are ignored; in bounds,
byte `y * bytes_per_row + x / 8` has bit `0x80 >> (x & 7)` set for `Off`
(background) and cleared (`&= !mask`, u8 complement) for `On` (foreground). -/
def set_pixel (img : MonoImage) (x y : Nat) (color : BinaryColor) : MonoImage :=
  if x ≥ img.width ∨ y ≥ img.height then
    img
  else
    let idx := y * img.bytes_per_row + x / 8
    let mask := 0x80 >>> (x % 8)
    let b := img.data.getD idx 0
    match color with
    | BinaryColor.Off => { img with data := img.data.set idx (b ||| mask) }
    | BinaryColor.On => { img with data := img.data.set idx (b &&& (0xFF ^^^ mask)) }

/-- `DrawTarget::draw_iter` for `MonoImage`: coordinates are signed;
pixels with a negative component are skipped, the rest go through
`set_pixel`.  The Rust error type is `Infallible`, so the embedding is a
total function returning the updated image. -/
def draw_iter (img : MonoImage) (pixels : List (Int × Int × BinaryColor)) : MonoImage :=
  pixels.foldl
    (fun acc p =>
      if p.1 < 0 ∨ p.2.1 < 0 then acc
      else acc.set_pixel p.1.toNat p.2.1.toNat p.2.2)
    img

/-- Well-formedness of a `MonoImage`: the store length matches the
geometry and every stored byte fits in a u8. -/
def Wf (img : MonoImage) : Prop :=
  img.bytes_per_row = (img.width + 7) / 8 ∧
  img.data.length = img.bytes_per_row * img.height ∧
  ∀ b ∈ img.data, b < 256

instance (img : MonoImage) : Decidable img.Wf := by
  unfold Wf; infer_instance

end MonoImage

/-- `UpdateMode` from src/epd2in13_v4.rs. -/
inductive UpdateMode where
  | Normal
  | Fast
  | Partial
deriving DecidableEq, Repr

/-- `EpdError` from src/epd2in13_v4.rs, restricted to the variant the
driver itself raises; transport (SPI/GPIO) errors are external failures
and the transport is modelled as infallible. -/
inductive EpdError where
  | BufferSize (expected actual : Nat)
deriving DecidableEq, Repr

/-- One observable bus/line interaction of the driver. -/
inductive BusEvent where
  | dc (high : Bool)
  | spi (bytes : List Nat)
  | rst (high : Bool)
  | sleepMs (ms : Nat)
  | busyRead (high : Bool)
deriving DecidableEq, Repr

namespace Epd2in13V4

def WIDTH : Nat := 122
def HEIGHT : Nat := 250

/-- `bytes_per_row` computed in `with_spi`: `(WIDTH + 7) / 8`. -/
def bytes_per_row : Nat := (WIDTH + 7) / 8

/-- `Epd2in13V4::command`: pull DC low, write one byte over SPI. -/
def command (c : Nat) : List BusEvent :=
  [BusEvent.dc false, BusEvent.spi [c]]

/-- `Epd2in13V4::data`: pull DC high, write the bytes over SPI. -/
def dataWrite (d : List Nat) : List BusEvent :=
  [BusEvent.dc true, BusEvent.spi d]

/-- `Epd2in13V4::command_data`: a command byte followed by its parameters. -/
def command_data (c : Nat) (d : List Nat) : List BusEvent :=
  command c ++ dataWrite d

/-- `Epd2in13V4::reset`: RST high, 20 ms, low, 2 ms, high, 20 ms. -/
def reset : List BusEvent :=
  [BusEvent.rst true, BusEvent.sleepMs 20, BusEvent.rst false,
   BusEvent.sleepMs 2, BusEvent.rst true, BusEvent.sleepMs 20]

/-- `Epd2in13V4::wait_until_idle`: poll the busy line while it reads high,
sleeping 10 ms after each high reading, then one extra 10 ms settle sleep
after the first low reading.  The busy line is modelled as the list of
readings it will deliver; an exhausted list reads low. -/
def wait_until_idle : List Bool → List BusEvent
  | [] => [BusEvent.busyRead false, BusEvent.sleepMs 10]
  | b :: rest =>
    if b then
      BusEvent.busyRead true :: BusEvent.sleepMs 10 :: wait_until_idle rest
    else
      [BusEvent.busyRead false, BusEvent.sleepMs 10]

/-- `Epd2in13V4::set_window`: 0x44 with byte-granular X bounds, 0x45 with
little-endian 16-bit Y bounds (`as u8` truncates mod 256). -/
def set_window (x_start y_start x_end y_end : Nat) : List BusEvent :=
  command_data 0x44 [x_start / 8 % 256, x_end / 8 % 256] ++
  command_data 0x45
    [y_start % 256, y_start / 256 % 256, y_end % 256, y_end / 256 % 256]

/-- `Epd2in13V4::set_cursor`: 0x4E with byte-granular X, 0x4F with
little-endian 16-bit Y. -/
def set_cursor (x y : Nat) : List BusEvent :=
  command_data 0x4E [x / 8 % 256] ++ command_data 0x4F [y % 256, y / 256 % 256]

/-- Control byte for `turn_on_display`. -/
def controlByte : UpdateMode → Nat
  | UpdateMode.Normal => 0xF7
  | UpdateMode.Fast => 0xC7
  | UpdateMode.Partial => 0xFF

/-- `Epd2in13V4::turn_on_display`: 0x22 with the mode's control byte,
0x20 (master activation), then busy-wait. -/
def turn_on_display (mode : UpdateMode) (busy : List Bool) : List BusEvent :=
  command_data 0x22 [controlByte mode] ++ command 0x20 ++ wait_until_idle busy

/-- `Epd2in13V4::write_image`: length check against
`bytes_per_row * HEIGHT` before any bus traffic; on success, the command
byte then the whole image as data. -/
def write_image (c : Nat) (image : List Nat) :
    List BusEvent × Option EpdError :=
  let expected := bytes_per_row * HEIGHT
  if image.length ≠ expected then
    ([], some (EpdError.BufferSize expected image.length))
  else
    (command c ++ dataWrite image, none)

/-- `Epd2in13V4::display`: write the image under 0x24 and refresh in
Normal mode. -/
def display (image : List Nat) (busy : List Bool) :
    List BusEvent × Option EpdError :=
  match write_image 0x24 image with
  | (tr, some e) => (tr, some e)
  | (tr, none) => (tr ++ turn_on_display UpdateMode.Normal busy, none)

/-- `Epd2in13V4::display_fast`: write the image under 0x24 and refresh in
Fast mode. -/
def display_fast (image : List Nat) (busy : List Bool) :
    List BusEvent × Option EpdError :=
  match write_image 0x24 image with
  | (tr, some e) => (tr, some e)
  | (tr, none) => (tr ++ turn_on_display UpdateMode.Fast busy, none)

/-- `Epd2in13V4::display_base`: write the image under 0x24 and again
under 0x26, then refresh in Normal mode. -/
def display_base (image : List Nat) (busy : List Bool) :
    List BusEvent × Option EpdError :=
  match write_image 0x24 image with
  | (tr, some e) => (tr, some e)
  | (tr, none) =>
    match write_image 0x26 image with
    | (tr2, some e) => (tr ++ tr2, some e)
    | (tr2, none) =>
      (tr ++ tr2 ++ turn_on_display UpdateMode.Normal busy, none)

/-- `Epd2in13V4::display_partial`: short reset, border waveform
0x3C=[0x80], driver output control 0x01=[0xF9,0x00,0x00], data entry mode
0x11=[0x03], window, cursor, then the image under 0x24 and a Partial-mode
refresh.  The reconfiguration happens before `write_image`'s length
check. -/
def display_partial (image : List Nat) (busy : List Bool) :
    List BusEvent × Option EpdError :=
  let pre := reset ++ command_data 0x3C [0x80] ++
    command_data 0x01 [0xF9, 0x00, 0x00] ++ command_data 0x11 [0x03] ++
    set_window 0 0 (WIDTH - 1) (HEIGHT - 1) ++ set_cursor 0 0
  match write_image 0x24 image with
  | (tr, some e) => (pre ++ tr, some e)
  | (tr, none) => (pre ++ tr ++ turn_on_display UpdateMode.Partial busy, none)

/-- Number of busy-line reads in a trace. -/
def busyReadCount (tr : List BusEvent) : Nat :=
  tr.countP fun e =>
    match e with
    | BusEvent.busyRead _ => true
    | _ => false

end Epd2in13V4

/-! ## Helper lemmas -/

/-- The pixel mask `0x80 >> (x & 7)` is the power of two `2 ^ (7 - x % 8)`. -/
theorem mask_eq (x : Nat) : 128 >>> (x % 8) = 2 ^ (7 - x % 8) := by
  have h : x % 8 < 8 := Nat.mod_lt _ (by norm_num)
  rw [Nat.shiftRight_eq_div_pow]
  have h128 : (128 : Nat) = 2 ^ 7 := by norm_num
  rw [h128, Nat.pow_div (by omega) (by norm_num)]

theorem getD_set_self (l : List Nat) (i v : Nat) (h : i < l.length) :
    (l.set i v).getD i 0 = v := by
  simp [List.getD_eq_getElem?_getD, List.getElem?_set, h]

/-- In-bounds pixels address a byte inside a well-formed store. -/
theorem idx_lt (img : MonoImage) (h : img.Wf) (x y : Nat)
    (hx : x < img.width) (hy : y < img.height) :
    y * img.bytes_per_row + x / 8 < img.data.length := by
  obtain ⟨hbpr, hlen, -⟩ := h
  have h1 : x / 8 < img.bytes_per_row := by rw [hbpr]; omega
  have h2 : y * img.bytes_per_row + x / 8 < (y + 1) * img.bytes_per_row := by
    rw [Nat.succ_mul]; omega
  have h3 : (y + 1) * img.bytes_per_row ≤ img.height * img.bytes_per_row :=
    Nat.mul_le_mul_right _ hy
  calc y * img.bytes_per_row + x / 8
      < (y + 1) * img.bytes_per_row := h2
    _ ≤ img.height * img.bytes_per_row := h3
    _ = img.bytes_per_row * img.height := Nat.mul_comm _ _
    _ = img.data.length := hlen.symm

theorem testBit_set_mask (b k : Nat) : (b ||| 2 ^ k).testBit k = true := by
  simp [Nat.testBit_lor, Nat.testBit_two_pow]

theorem testBit_set_mask_ne (b k j : Nat) (h : k ≠ j) :
    (b ||| 2 ^ k).testBit j = b.testBit j := by
  simp [Nat.testBit_lor, Nat.testBit_two_pow, h]

theorem testBit_255 (k : Nat) (hk : k < 8) : Nat.testBit 255 k = true := by
  have h255 : (255 : Nat) = 2 ^ 8 - 1 := by norm_num
  rw [h255, Nat.testBit_two_pow_sub_one]
  simpa using hk

theorem testBit_clear_mask (b k : Nat) (hk : k < 8) :
    (b &&& (255 ^^^ 2 ^ k)).testBit k = false := by
  simp [Nat.testBit_land, Nat.testBit_xor, testBit_255 k hk,
    Nat.testBit_two_pow]

theorem testBit_clear_mask_ne (b k j : Nat) (hj : j < 8) (h : k ≠ j) :
    (b &&& (255 ^^^ 2 ^ k)).testBit j = b.testBit j := by
  simp [Nat.testBit_land, Nat.testBit_xor, testBit_255 j hj,
    Nat.testBit_two_pow, h]

theorem lor_idem (b m : Nat) : (b ||| m) ||| m = b ||| m :=
  Nat.eq_of_testBit_eq (by intro i; simp [Nat.testBit_lor, Bool.or_assoc])

theorem land_idem (b m : Nat) : (b &&& m) &&& m = b &&& m :=
  Nat.eq_of_testBit_eq (by intro i; simp [Nat.testBit_land, Bool.and_assoc])

/-- Setting a bit after clearing it restores the original byte whenever
the bit was originally set (and the byte is a u8). -/
theorem clear_then_set (b k : Nat) (hb : b < 256) (hk : k < 8)
    (h : b.testBit k = true) : (b &&& (255 ^^^ 2 ^ k)) ||| 2 ^ k = b := by
  apply Nat.eq_of_testBit_eq
  intro i
  by_cases hik : i = k
  · subst hik
    rw [testBit_set_mask, h]
  · rw [testBit_set_mask_ne _ _ _ (fun he => hik he.symm)]
    by_cases hi8 : i < 8
    · exact testBit_clear_mask_ne b k i hi8 (fun he => hik he.symm)
    · have h256 : (256 : Nat) = 2 ^ 8 := by norm_num
      have hbi : b < 2 ^ i := by
        calc b < 256 := hb
          _ = 2 ^ 8 := h256
          _ ≤ 2 ^ i := Nat.pow_le_pow_right (by norm_num) (by omega)
      have hbi2 : b &&& (255 ^^^ 2 ^ k) < 2 ^ i :=
        lt_of_le_of_lt Nat.and_le_left hbi
      rw [Nat.testBit_lt_two_pow hbi, Nat.testBit_lt_two_pow hbi2]

/-- In-bounds `set_pixel` with `Off` (background): set the mask bit of the
addressed byte. -/
theorem set_pixel_off (img : MonoImage) (x y : Nat)
    (hx : x < img.width) (hy : y < img.height) :
    img.set_pixel x y BinaryColor.Off =
      { img with data := (img.data.set (y * img.bytes_per_row + x / 8)
          (img.data.getD (y * img.bytes_per_row + x / 8) 0 |||
            2 ^ (7 - x % 8))) } := by
  unfold MonoImage.set_pixel
  rw [if_neg (by omega)]
  simp [mask_eq]

/-- In-bounds `set_pixel` with `On` (foreground): clear the mask bit of
the addressed byte. -/
theorem set_pixel_on (img : MonoImage) (x y : Nat)
    (hx : x < img.width) (hy : y < img.height) :
    img.set_pixel x y BinaryColor.On =
      { img with data := (img.data.set (y * img.bytes_per_row + x / 8)
          (img.data.getD (y * img.bytes_per_row + x / 8) 0 &&&
            (255 ^^^ 2 ^ (7 - x % 8)))) } := by
  unfold MonoImage.set_pixel
  rw [if_neg (by omega)]
  simp [mask_eq]

theorem set_getElem_self (l : List Nat) (i : Nat) (h : i < l.length) :
    l.set i l[i] = l := by
  apply List.ext_getElem?
  intro n
  rw [List.getElem?_set]
  split
  · next he => subst he; simp [h]
  · rfl

/-- `set_pixel` never changes the geometry fields. -/
theorem set_pixel_fields (img : MonoImage) (x y : Nat) (c : BinaryColor) :
    (img.set_pixel x y c).width = img.width ∧
    (img.set_pixel x y c).height = img.height ∧
    (img.set_pixel x y c).bytes_per_row = img.bytes_per_row := by
  unfold MonoImage.set_pixel
  split
  · exact ⟨rfl, rfl, rfl⟩
  · cases c <;> exact ⟨rfl, rfl, rfl⟩

theorem ext_img (a b : MonoImage) (h1 : a.width = b.width)
    (h2 : a.height = b.height) (h3 : a.bytes_per_row = b.bytes_per_row)
    (h4 : a.data = b.data) : a = b := by
  cases a; cases b; simp_all

theorem set_pixel_off_data (img : MonoImage) (x y : Nat)
    (hx : x < img.width) (hy : y < img.height) :
    (img.set_pixel x y BinaryColor.Off).data =
      img.data.set (y * img.bytes_per_row + x / 8)
        (img.data.getD (y * img.bytes_per_row + x / 8) 0 |||
          2 ^ (7 - x % 8)) := by
  rw [set_pixel_off img x y hx hy]

theorem set_pixel_on_data (img : MonoImage) (x y : Nat)
    (hx : x < img.width) (hy : y < img.height) :
    (img.set_pixel x y BinaryColor.On).data =
      img.data.set (y * img.bytes_per_row + x / 8)
        (img.data.getD (y * img.bytes_per_row + x / 8) 0 &&&
          (255 ^^^ 2 ^ (7 - x % 8))) := by
  rw [set_pixel_on img x y hx hy]

/-! ## Claims -/

/-- C5: a freshly created `PixelBuffer` has a raw byte store of length
exactly `⌈width/8⌉ × height` (for naturals, `(width + 7) / 8 × height`),
and every byte of the store is the background fill `0xFF`. -/
theorem C5_new_buffer (w h : Nat) :
    (MonoImage.new w h).data.length = (w + 7) / 8 * h ∧
    ∀ b ∈ (MonoImage.new w h).data, b = 0xFF := by
  constructor
  · simp [MonoImage.new]
  · intro b hb
    simp only [MonoImage.new, List.mem_replicate] at hb
    exact hb.2

theorem C5_new_buffer_witness :
    (MonoImage.new 10 3).data.length = (10 + 7) / 8 * 3 ∧
    ∀ b ∈ (MonoImage.new 10 3).data, b = 0xFF :=
  C5_new_buffer 10 3

/-- C6: `clear(background)` makes every byte of the store `0xFF` and
`clear(foreground)` makes every byte `0x00`; the store length is
unchanged.  `clear` is a total function of the buffer (the Rust method
returns no error). -/
theorem C6_clear (img : MonoImage) :
    (img.clear BinaryColor.Off).data.length = img.data.length ∧
    (∀ b ∈ (img.clear BinaryColor.Off).data, b = 0xFF) ∧
    (img.clear BinaryColor.On).data.length = img.data.length ∧
    (∀ b ∈ (img.clear BinaryColor.On).data, b = 0x00) := by
  refine ⟨by simp only [MonoImage.clear]; exact List.length_replicate _ _, ?_,
    by simp only [MonoImage.clear]; exact List.length_replicate _ _, ?_⟩
  · intro b hb
    simp only [MonoImage.clear, List.mem_replicate] at hb
    simpa using hb.2
  · intro b hb
    simp only [MonoImage.clear, List.mem_replicate] at hb
    simpa using hb.2

/-- C4: for an in-bounds pixel of a well-formed buffer, `set_pixel` with
foreground (`On`) makes bit `7 - x % 8` (the bit selected by the mask
`0x80 >> (x % 8)`, MSB-first) of byte `y × bytes_per_row + x / 8` equal
`0` (ink), background (`Off`) makes it `1` (no ink); every other bit of
that byte and every other byte of the store are unchanged. -/
theorem C4_set_pixel_packing (img : MonoImage) (hwf : img.Wf) (x y : Nat)
    (hx : x < img.width) (hy : y < img.height) :
    ((img.set_pixel x y BinaryColor.On).data.getD
        (y * img.bytes_per_row + x / 8) 0).testBit (7 - x % 8) = false ∧
    ((img.set_pixel x y BinaryColor.Off).data.getD
        (y * img.bytes_per_row + x / 8) 0).testBit (7 - x % 8) = true ∧
    (∀ (c : BinaryColor) (j : Nat), j < 8 → j ≠ 7 - x % 8 →
      ((img.set_pixel x y c).data.getD
          (y * img.bytes_per_row + x / 8) 0).testBit j =
        (img.data.getD (y * img.bytes_per_row + x / 8) 0).testBit j) ∧
    (∀ (c : BinaryColor) (i : Nat), i ≠ y * img.bytes_per_row + x / 8 →
      (img.set_pixel x y c).data[i]? = img.data[i]?) := by
  have hidx : y * img.bytes_per_row + x / 8 < img.data.length :=
    idx_lt img hwf x y hx hy
  have hk : 7 - x % 8 < 8 := by omega
  refine ⟨?_, ?_, ?_, ?_⟩
  · rw [set_pixel_on img x y hx hy]
    simp only
    rw [getD_set_self _ _ _ hidx]
    exact testBit_clear_mask _ _ hk
  · rw [set_pixel_off img x y hx hy]
    simp only
    rw [getD_set_self _ _ _ hidx]
    exact testBit_set_mask _ _
  · intro c j hj hjk
    cases c
    · rw [set_pixel_off img x y hx hy]
      simp only
      rw [getD_set_self _ _ _ hidx]
      exact testBit_set_mask_ne _ _ _ (fun he => hjk he.symm)
    · rw [set_pixel_on img x y hx hy]
      simp only
      rw [getD_set_self _ _ _ hidx]
      exact testBit_clear_mask_ne _ _ _ hj (fun he => hjk he.symm)
  · intro c i hi
    cases c
    · rw [set_pixel_off img x y hx hy]
      simp only
      exact List.getElem?_set_ne (fun he => hi he.symm)
    · rw [set_pixel_on img x y hx hy]
      simp only
      exact List.getElem?_set_ne (fun he => hi he.symm)

theorem C4_set_pixel_packing_witness :
    ((((MonoImage.new 8 1).set_pixel 3 0 BinaryColor.On).data.getD
        (0 * (MonoImage.new 8 1).bytes_per_row + 3 / 8) 0).testBit
        (7 - 3 % 8) = false) ∧
    ((((MonoImage.new 8 1).set_pixel 3 0 BinaryColor.Off).data.getD
        (0 * (MonoImage.new 8 1).bytes_per_row + 3 / 8) 0).testBit
        (7 - 3 % 8) = true) ∧
    (∀ (c : BinaryColor) (j : Nat), j < 8 → j ≠ 7 - 3 % 8 →
      (((MonoImage.new 8 1).set_pixel 3 0 c).data.getD
          (0 * (MonoImage.new 8 1).bytes_per_row + 3 / 8) 0).testBit j =
        ((MonoImage.new 8 1).data.getD
          (0 * (MonoImage.new 8 1).bytes_per_row + 3 / 8) 0).testBit j) ∧
    (∀ (c : BinaryColor) (i : Nat),
      i ≠ 0 * (MonoImage.new 8 1).bytes_per_row + 3 / 8 →
      ((MonoImage.new 8 1).set_pixel 3 0 c).data[i]? =
        (MonoImage.new 8 1).data[i]?) :=
  C4_set_pixel_packing (MonoImage.new 8 1) (by decide) 3 0 (by decide)
    (by decide)

theorem C6_clear_witness :
    ((MonoImage.new 8 2).clear BinaryColor.Off).data.length =
      (MonoImage.new 8 2).data.length ∧
    (∀ b ∈ ((MonoImage.new 8 2).clear BinaryColor.Off).data, b = 0xFF) ∧
    ((MonoImage.new 8 2).clear BinaryColor.On).data.length =
      (MonoImage.new 8 2).data.length ∧
    (∀ b ∈ ((MonoImage.new 8 2).clear BinaryColor.On).data, b = 0x00) :=
  C6_clear (MonoImage.new 8 2)

/-- C7 (counterexample): the claim that `set_pixel(x,y,foreground)` then
`set_pixel(x,y,background)` restores the original bit fails when the
original bit is foreground: on an 8×1 buffer whose pixel (0,0) was set to
foreground (bit 7 of byte 0 is `0`), the sequence leaves that bit at `1`. -/
theorem C7_counterexample :
    (((((MonoImage.new 8 1).set_pixel 0 0 BinaryColor.On).set_pixel 0 0
          BinaryColor.On).set_pixel 0 0 BinaryColor.Off).data.getD 0 0).testBit
        7 = true ∧
    ((((MonoImage.new 8 1).set_pixel 0 0 BinaryColor.On).data.getD 0
          0).testBit 7 = false) ∧
    ((((MonoImage.new 8 1).set_pixel 0 0 BinaryColor.On).set_pixel 0 0
          BinaryColor.On).set_pixel 0 0 BinaryColor.Off).data ≠
      ((MonoImage.new 8 1).set_pixel 0 0 BinaryColor.On).data := by
  decide

/-- C7 (amended): on a well-formed buffer and in-bounds (x,y), repeating
`set_pixel` with the same color is idempotent; foreground-then-background
always leaves the bit at (x,y) in the background state (`1`), and restores
the buffer exactly whenever the original bit at (x,y) was background. -/
theorem C7_set_unset (img : MonoImage) (hwf : img.Wf) (x y : Nat)
    (hx : x < img.width) (hy : y < img.height) :
    (∀ c : BinaryColor,
      (img.set_pixel x y c).set_pixel x y c = img.set_pixel x y c) ∧
    ((((img.set_pixel x y BinaryColor.On).set_pixel x y
          BinaryColor.Off).data.getD
        (y * img.bytes_per_row + x / 8) 0).testBit (7 - x % 8) = true) ∧
    ((img.data.getD (y * img.bytes_per_row + x / 8) 0).testBit
        (7 - x % 8) = true →
      (img.set_pixel x y BinaryColor.On).set_pixel x y BinaryColor.Off =
        img) := by
  have hidx : y * img.bytes_per_row + x / 8 < img.data.length :=
    idx_lt img hwf x y hx hy
  have hk : 7 - x % 8 < 8 := by omega
  have hfOn := set_pixel_fields img x y BinaryColor.On
  have hfOff := set_pixel_fields img x y BinaryColor.Off
  have hxOn : x < (img.set_pixel x y BinaryColor.On).width := by
    rw [hfOn.1]; exact hx
  have hyOn : y < (img.set_pixel x y BinaryColor.On).height := by
    rw [hfOn.2.1]; exact hy
  have hxOff : x < (img.set_pixel x y BinaryColor.Off).width := by
    rw [hfOff.1]; exact hx
  have hyOff : y < (img.set_pixel x y BinaryColor.Off).height := by
    rw [hfOff.2.1]; exact hy
  refine ⟨?_, ?_, ?_⟩
  · intro c
    cases c
    · apply ext_img
      · exact (set_pixel_fields _ x y _).1
      · exact (set_pixel_fields _ x y _).2.1
      · exact (set_pixel_fields _ x y _).2.2
      · rw [set_pixel_off_data (img.set_pixel x y BinaryColor.Off) x y
          hxOff hyOff, hfOff.2.2, set_pixel_off_data img x y hx hy,
          getD_set_self _ _ _ hidx, List.set_set, lor_idem]
    · apply ext_img
      · exact (set_pixel_fields _ x y _).1
      · exact (set_pixel_fields _ x y _).2.1
      · exact (set_pixel_fields _ x y _).2.2
      · rw [set_pixel_on_data (img.set_pixel x y BinaryColor.On) x y
          hxOn hyOn, hfOn.2.2, set_pixel_on_data img x y hx hy,
          getD_set_self _ _ _ hidx, List.set_set, land_idem]
  · rw [set_pixel_off_data (img.set_pixel x y BinaryColor.On) x y
      hxOn hyOn, hfOn.2.2]
    have hlenOn : (img.set_pixel x y BinaryColor.On).data.length =
        img.data.length := by
      rw [set_pixel_on_data img x y hx hy]; exact List.length_set _ _ _
    rw [getD_set_self _ _ _ (by rw [hlenOn]; exact hidx)]
    exact testBit_set_mask _ _
  · intro hbit
    have hb : img.data.getD (y * img.bytes_per_row + x / 8) 0 < 256 := by
      rw [List.getD_eq_getElem _ _ hidx]
      exact hwf.2.2 _ (List.getElem_mem hidx)
    apply ext_img
    · rw [(set_pixel_fields _ x y _).1, hfOn.1]
    · rw [(set_pixel_fields _ x y _).2.1, hfOn.2.1]
    · rw [(set_pixel_fields _ x y _).2.2, hfOn.2.2]
    · rw [set_pixel_off_data (img.set_pixel x y BinaryColor.On) x y
        hxOn hyOn, hfOn.2.2, set_pixel_on_data img x y hx hy,
        getD_set_self _ _ _ hidx, List.set_set,
        clear_then_set _ _ hb hk hbit, List.getD_eq_getElem _ _ hidx,
        set_getElem_self _ _ hidx]

theorem C7_set_unset_witness :
    (∀ c : BinaryColor,
      ((MonoImage.new 8 1).set_pixel 3 0 c).set_pixel 3 0 c =
        (MonoImage.new 8 1).set_pixel 3 0 c) ∧
    (((((MonoImage.new 8 1).set_pixel 3 0 BinaryColor.On).set_pixel 3 0
          BinaryColor.Off).data.getD
        (0 * (MonoImage.new 8 1).bytes_per_row + 3 / 8) 0).testBit
        (7 - 3 % 8) = true) ∧
    (((MonoImage.new 8 1).data.getD
        (0 * (MonoImage.new 8 1).bytes_per_row + 3 / 8) 0).testBit
        (7 - 3 % 8) = true →
      ((MonoImage.new 8 1).set_pixel 3 0 BinaryColor.On).set_pixel 3 0
          BinaryColor.Off = MonoImage.new 8 1) :=
  C7_set_unset (MonoImage.new 8 1) (by decide) 3 0 (by decide) (by decide)

theorem draw_iter_cons (img : MonoImage) (p : Int × Int × BinaryColor)
    (rest : List (Int × Int × BinaryColor)) :
    img.draw_iter (p :: rest) =
      (if p.1 < 0 ∨ p.2.1 < 0 then img
        else img.set_pixel p.1.toNat p.2.1.toNat p.2.2).draw_iter rest :=
  rfl

/-- C8: a pixel write at an out-of-bounds coordinate — `x ≥ width`,
`y ≥ height`, or (through the batch drawing path) a negative component —
leaves the buffer unchanged; the batch path is infallible in the source
(`Error = Infallible`), so the embedding is a total function and no error
is reported. -/
theorem C8_oob_ignored (img : MonoImage) :
    (∀ (x y : Nat) (c : BinaryColor), img.width ≤ x ∨ img.height ≤ y →
      img.set_pixel x y c = img) ∧
    (∀ (px py : Int) (c : BinaryColor)
      (rest : List (Int × Int × BinaryColor)), px < 0 ∨ py < 0 →
        img.draw_iter ((px, py, c) :: rest) = img.draw_iter rest) := by
  constructor
  · intro x y c hxy
    unfold MonoImage.set_pixel
    rw [if_pos (by omega)]
  · intro px py c rest hneg
    rw [draw_iter_cons]
    simp only
    rw [if_pos hneg]

theorem C8_oob_ignored_witness :
    ((MonoImage.new 8 2).set_pixel 9 0 BinaryColor.On = MonoImage.new 8 2) ∧
    ((MonoImage.new 8 2).draw_iter [((-1 : Int), (0 : Int), BinaryColor.On)] =
      (MonoImage.new 8 2).draw_iter []) :=
  ⟨(C8_oob_ignored (MonoImage.new 8 2)).1 9 0 BinaryColor.On
      (Or.inl (by decide)),
    (C8_oob_ignored (MonoImage.new 8 2)).2 (-1) 0 BinaryColor.On []
      (Or.inl (by decide))⟩

theorem wf_new (w h : Nat) : (MonoImage.new w h).Wf := by
  refine ⟨rfl, by simp [MonoImage.new], ?_⟩
  intro b hb
  simp only [MonoImage.new, List.mem_replicate] at hb
  rw [hb.2]
  norm_num

theorem wf_set_pixel (img : MonoImage) (x y : Nat) (c : BinaryColor)
    (hwf : img.Wf) : (img.set_pixel x y c).Wf := by
  by_cases hb : x < img.width ∧ y < img.height
  · have hidx : y * img.bytes_per_row + x / 8 < img.data.length :=
      idx_lt img hwf x y hb.1 hb.2
    have hold : img.data.getD (y * img.bytes_per_row + x / 8) 0 < 256 := by
      rw [List.getD_eq_getElem _ _ hidx]
      exact hwf.2.2 _ (List.getElem_mem hidx)
    cases c
    · rw [set_pixel_off img x y hb.1 hb.2]
      refine ⟨hwf.1, ?_, ?_⟩
      · simpa using hwf.2.1
      · intro b hmem
        simp only at hmem
        rcases List.mem_or_eq_of_mem_set hmem with hm | hm
        · exact hwf.2.2 b hm
        · rw [hm]
          have h256 : (256 : Nat) = 2 ^ 8 := by norm_num
          rw [h256]
          refine Nat.or_lt_two_pow (by rw [← h256]; exact hold) ?_
          calc (2 : Nat) ^ (7 - x % 8)
              ≤ 2 ^ 7 := Nat.pow_le_pow_right (by norm_num) (by omega)
            _ < 2 ^ 8 := by norm_num
    · rw [set_pixel_on img x y hb.1 hb.2]
      refine ⟨hwf.1, ?_, ?_⟩
      · simpa using hwf.2.1
      · intro b hmem
        simp only at hmem
        rcases List.mem_or_eq_of_mem_set hmem with hm | hm
        · exact hwf.2.2 b hm
        · rw [hm]
          exact lt_of_le_of_lt Nat.and_le_left hold
  · unfold MonoImage.set_pixel
    rw [if_pos (by omega)]
    exact hwf

theorem wf_draw_iter (ps : List (Int × Int × BinaryColor))
    (img : MonoImage) (hwf : img.Wf) :
    (img.draw_iter ps).Wf ∧ (img.draw_iter ps).width = img.width ∧
      (img.draw_iter ps).height = img.height ∧
      (img.draw_iter ps).bytes_per_row = img.bytes_per_row := by
  induction ps generalizing img with
  | nil => exact ⟨hwf, rfl, rfl, rfl⟩
  | cons p rest ih =>
    rw [draw_iter_cons]
    by_cases hneg : p.1 < 0 ∨ p.2.1 < 0
    · rw [if_pos hneg]
      exact ih img hwf
    · rw [if_neg hneg]
      obtain ⟨h1, h2, h3, h4⟩ :=
        ih _ (wf_set_pixel img p.1.toNat p.2.1.toNat p.2.2 hwf)
      have hf := set_pixel_fields img p.1.toNat p.2.1.toNat p.2.2
      exact ⟨h1, by rw [h2, hf.1], by rw [h3, hf.2.1], by rw [h4, hf.2.2]⟩

/-- C10: construction is total, yielding a zero-length store for a zero
width or height, and `clear`, `set_pixel` and batch drawing all preserve
the well-formedness invariant (store length `= ⌈width/8⌉ × height`, all
bytes u8) with the geometry unchanged from construction. -/
theorem C10_construction_invariants :
    (∀ w h, (MonoImage.new w h).Wf ∧ (MonoImage.new w h).width = w ∧
      (MonoImage.new w h).height = h) ∧
    (∀ h, (MonoImage.new 0 h).data = []) ∧
    (∀ w, (MonoImage.new w 0).data = []) ∧
    (∀ (img : MonoImage) (c : BinaryColor), img.Wf →
      (img.clear c).Wf ∧ (img.clear c).width = img.width ∧
        (img.clear c).height = img.height) ∧
    (∀ (img : MonoImage) (x y : Nat) (c : BinaryColor), img.Wf →
      (img.set_pixel x y c).Wf ∧ (img.set_pixel x y c).width = img.width ∧
        (img.set_pixel x y c).height = img.height) ∧
    (∀ (img : MonoImage) (ps : List (Int × Int × BinaryColor)), img.Wf →
      (img.draw_iter ps).Wf ∧ (img.draw_iter ps).width = img.width ∧
        (img.draw_iter ps).height = img.height) := by
  refine ⟨fun w h => ⟨wf_new w h, rfl, rfl⟩, ?_, ?_, ?_, ?_, ?_⟩
  · intro h
    simp [MonoImage.new]
  · intro w
    simp [MonoImage.new]
  · intro img c hwf
    refine ⟨⟨hwf.1, ?_, ?_⟩, rfl, rfl⟩
    · simp only [MonoImage.clear]
      rw [List.length_replicate]
      exact hwf.2.1
    · intro b hmem
      simp only [MonoImage.clear, List.mem_replicate] at hmem
      rw [hmem.2]
      cases c <;> simp
  · intro img x y c hwf
    exact ⟨wf_set_pixel img x y c hwf,
      (set_pixel_fields img x y c).1, (set_pixel_fields img x y c).2.1⟩
  · intro img ps hwf
    exact ⟨(wf_draw_iter ps img hwf).1, (wf_draw_iter ps img hwf).2.1,
      (wf_draw_iter ps img hwf).2.2.1⟩

theorem C10_construction_invariants_witness :
    ((MonoImage.new 8 2).clear BinaryColor.On).Wf ∧
    ((MonoImage.new 8 2).set_pixel 1 1 BinaryColor.On).Wf ∧
    ((MonoImage.new 8 2).draw_iter
      [((1 : Int), (0 : Int), BinaryColor.On)]).Wf :=
  ⟨(C10_construction_invariants.2.2.2.1 (MonoImage.new 8 2) BinaryColor.On
      (by decide)).1,
    (C10_construction_invariants.2.2.2.2.1 (MonoImage.new 8 2) 1 1
      BinaryColor.On (by decide)).1,
    (C10_construction_invariants.2.2.2.2.2 (MonoImage.new 8 2)
      [((1 : Int), (0 : Int), BinaryColor.On)] (by decide)).1⟩

/-- C3: if the busy line reads busy for the first `n` polls and idle on
poll `n + 1`, the busy-wait trace is exactly `n` (read-busy, 10 ms sleep)
pairs, then the idle read, then the fixed 10 ms settle sleep: `n + 1`
busy-line reads in total, with a sleep between consecutive reads.  The
function is total for every such line (no timeout path exists). -/
theorem C3_busy_wait (n : Nat) (rest : List Bool) :
    Epd2in13V4.wait_until_idle (List.replicate n true ++ false :: rest) =
      (List.replicate n
        [BusEvent.busyRead true, BusEvent.sleepMs 10]).flatten ++
        [BusEvent.busyRead false, BusEvent.sleepMs 10] ∧
    Epd2in13V4.busyReadCount
      (Epd2in13V4.wait_until_idle
        (List.replicate n true ++ false :: rest)) = n + 1 := by
  induction n with
  | zero =>
    constructor
    · simp [Epd2in13V4.wait_until_idle]
    · simp [Epd2in13V4.wait_until_idle, Epd2in13V4.busyReadCount]
  | succ n ih =>
    have hsplit : List.replicate (n + 1) true ++ false :: rest =
        true :: (List.replicate n true ++ false :: rest) := by
      simp [List.replicate_succ]
    rw [hsplit]
    constructor
    · simp only [Epd2in13V4.wait_until_idle, if_pos]
      rw [ih.1]
      simp [List.replicate_succ]
    · simp only [Epd2in13V4.wait_until_idle, if_pos,
        Epd2in13V4.busyReadCount, List.countP_cons]
      have := ih.2
      simp only [Epd2in13V4.busyReadCount] at this
      rw [this]
      simp

/-- C2: for every correctly sized image, `display_partial` produces the
one fixed partial-refresh bus sequence — short reset; border waveform
`0x3C = [0x80]`; driver output control `0x01 = [0xF9, 0x00, 0x00]`; data
entry mode `0x11 = [0x03]`; window `0x44/0x45`; cursor `0x4E/0x4F`; image
write `0x24`; update control `0x22` with the Partial control byte `0xFF`;
master activation `0x20`; busy-wait.  The trace is a function of the image
and the busy line alone: the driver keeps no update-mode history and
enforces no `display_base` precondition, so the sequence is identical
whether or not `display_base` was ever called. -/
theorem C2_partial_fixed_sequence (image : List Nat) (busy : List Bool)
    (h : image.length = 4000) :
    Epd2in13V4.display_partial image busy =
      ([BusEvent.rst true, BusEvent.sleepMs 20, BusEvent.rst false,
        BusEvent.sleepMs 2, BusEvent.rst true, BusEvent.sleepMs 20,
        BusEvent.dc false, BusEvent.spi [0x3C],
        BusEvent.dc true, BusEvent.spi [0x80],
        BusEvent.dc false, BusEvent.spi [0x01],
        BusEvent.dc true, BusEvent.spi [0xF9, 0x00, 0x00],
        BusEvent.dc false, BusEvent.spi [0x11],
        BusEvent.dc true, BusEvent.spi [0x03],
        BusEvent.dc false, BusEvent.spi [0x44],
        BusEvent.dc true, BusEvent.spi [0x00, 0x0F],
        BusEvent.dc false, BusEvent.spi [0x45],
        BusEvent.dc true, BusEvent.spi [0x00, 0x00, 0xF9, 0x00],
        BusEvent.dc false, BusEvent.spi [0x4E],
        BusEvent.dc true, BusEvent.spi [0x00],
        BusEvent.dc false, BusEvent.spi [0x4F],
        BusEvent.dc true, BusEvent.spi [0x00, 0x00],
        BusEvent.dc false, BusEvent.spi [0x24],
        BusEvent.dc true, BusEvent.spi image,
        BusEvent.dc false, BusEvent.spi [0x22],
        BusEvent.dc true, BusEvent.spi [0xFF],
        BusEvent.dc false, BusEvent.spi [0x20]] ++
        Epd2in13V4.wait_until_idle busy, none) := by
  have hw : Epd2in13V4.write_image 0x24 image =
      (Epd2in13V4.command 0x24 ++ Epd2in13V4.dataWrite image, none) := by
    unfold Epd2in13V4.write_image
    rw [if_neg]
    simp [Epd2in13V4.bytes_per_row, Epd2in13V4.WIDTH, Epd2in13V4.HEIGHT, h]
  simp [Epd2in13V4.display_partial, hw, Epd2in13V4.reset,
    Epd2in13V4.command, Epd2in13V4.dataWrite, Epd2in13V4.command_data,
    Epd2in13V4.set_window, Epd2in13V4.set_cursor,
    Epd2in13V4.turn_on_display, Epd2in13V4.controlByte,
    Epd2in13V4.WIDTH, Epd2in13V4.HEIGHT]

theorem C2_partial_fixed_sequence_witness :
    Epd2in13V4.display_partial (List.replicate 4000 0x55) [] =
      ([BusEvent.rst true, BusEvent.sleepMs 20, BusEvent.rst false,
        BusEvent.sleepMs 2, BusEvent.rst true, BusEvent.sleepMs 20,
        BusEvent.dc false, BusEvent.spi [0x3C],
        BusEvent.dc true, BusEvent.spi [0x80],
        BusEvent.dc false, BusEvent.spi [0x01],
        BusEvent.dc true, BusEvent.spi [0xF9, 0x00, 0x00],
        BusEvent.dc false, BusEvent.spi [0x11],
        BusEvent.dc true, BusEvent.spi [0x03],
        BusEvent.dc false, BusEvent.spi [0x44],
        BusEvent.dc true, BusEvent.spi [0x00, 0x0F],
        BusEvent.dc false, BusEvent.spi [0x45],
        BusEvent.dc true, BusEvent.spi [0x00, 0x00, 0xF9, 0x00],
        BusEvent.dc false, BusEvent.spi [0x4E],
        BusEvent.dc true, BusEvent.spi [0x00],
        BusEvent.dc false, BusEvent.spi [0x4F],
        BusEvent.dc true, BusEvent.spi [0x00, 0x00],
        BusEvent.dc false, BusEvent.spi [0x24],
        BusEvent.dc true, BusEvent.spi (List.replicate 4000 0x55),
        BusEvent.dc false, BusEvent.spi [0x22],
        BusEvent.dc true, BusEvent.spi [0xFF],
        BusEvent.dc false, BusEvent.spi [0x20]] ++
        Epd2in13V4.wait_until_idle [], none) :=
  C2_partial_fixed_sequence (List.replicate 4000 0x55) []
    (by rw [List.length_replicate])

/-- C9: for a correctly sized image, `display_base` transmits the image
bytes twice — once under the current-frame command `0x24` and once under
the previous-frame command `0x26` — before a Normal-mode refresh
(`0x22 = [0xF7]`, `0x20`, busy-wait), while `display` transmits the image
only once, under `0x24`. -/
theorem C9_base_writes_twice (image : List Nat) (busy : List Bool)
    (h : image.length = 4000) :
    Epd2in13V4.display_base image busy =
      ([BusEvent.dc false, BusEvent.spi [0x24],
        BusEvent.dc true, BusEvent.spi image,
        BusEvent.dc false, BusEvent.spi [0x26],
        BusEvent.dc true, BusEvent.spi image,
        BusEvent.dc false, BusEvent.spi [0x22],
        BusEvent.dc true, BusEvent.spi [0xF7],
        BusEvent.dc false, BusEvent.spi [0x20]] ++
        Epd2in13V4.wait_until_idle busy, none) ∧
    Epd2in13V4.display image busy =
      ([BusEvent.dc false, BusEvent.spi [0x24],
        BusEvent.dc true, BusEvent.spi image,
        BusEvent.dc false, BusEvent.spi [0x22],
        BusEvent.dc true, BusEvent.spi [0xF7],
        BusEvent.dc false, BusEvent.spi [0x20]] ++
        Epd2in13V4.wait_until_idle busy, none) := by
  have hw : ∀ c : Nat, Epd2in13V4.write_image c image =
      (Epd2in13V4.command c ++ Epd2in13V4.dataWrite image, none) := by
    intro c
    unfold Epd2in13V4.write_image
    rw [if_neg]
    simp [Epd2in13V4.bytes_per_row, Epd2in13V4.WIDTH, Epd2in13V4.HEIGHT, h]
  constructor
  · simp [Epd2in13V4.display_base, hw, Epd2in13V4.command,
      Epd2in13V4.dataWrite, Epd2in13V4.command_data,
      Epd2in13V4.turn_on_display, Epd2in13V4.controlByte]
  · simp [Epd2in13V4.display, hw, Epd2in13V4.command,
      Epd2in13V4.dataWrite, Epd2in13V4.command_data,
      Epd2in13V4.turn_on_display, Epd2in13V4.controlByte]

theorem C9_base_writes_twice_witness :
    (Epd2in13V4.display_base (List.replicate 4000 0xAA) [] =
      ([BusEvent.dc false, BusEvent.spi [0x24],
        BusEvent.dc true, BusEvent.spi (List.replicate 4000 0xAA),
        BusEvent.dc false, BusEvent.spi [0x26],
        BusEvent.dc true, BusEvent.spi (List.replicate 4000 0xAA),
        BusEvent.dc false, BusEvent.spi [0x22],
        BusEvent.dc true, BusEvent.spi [0xF7],
        BusEvent.dc false, BusEvent.spi [0x20]] ++
        Epd2in13V4.wait_until_idle [], none)) ∧
    (Epd2in13V4.display (List.replicate 4000 0xAA) [] =
      ([BusEvent.dc false, BusEvent.spi [0x24],
        BusEvent.dc true, BusEvent.spi (List.replicate 4000 0xAA),
        BusEvent.dc false, BusEvent.spi [0x22],
        BusEvent.dc true, BusEvent.spi [0xF7],
        BusEvent.dc false, BusEvent.spi [0x20]] ++
        Epd2in13V4.wait_until_idle [], none)) :=
  C9_base_writes_twice (List.replicate 4000 0xAA) []
    (by rw [List.length_replicate])

/-- C1 (counterexample): the claim that every display-triggering call
rejects a wrongly sized image with zero bus traffic fails for
`display_partial`: with an empty image it returns the BufferSize error
(expected 4000, actual 0), but its trace already contains GPIO and SPI
traffic (the reset pulse and the `0x3C` border-waveform command, among
others). -/
theorem C1_counterexample :
    (Epd2in13V4.display_partial [] []).2 =
      some (EpdError.BufferSize 4000 0) ∧
    (Epd2in13V4.display_partial [] []).1 ≠ [] ∧
    BusEvent.spi [0x3C] ∈ (Epd2in13V4.display_partial [] []).1 ∧
    BusEvent.rst true ∈ (Epd2in13V4.display_partial [] []).1 := by
  decide

/-- C1 (amended): for every image of length `L ≠ 4000`, each of
`display`, `display_fast`, `display_base` and `display_partial` returns
the BufferSize error with `expected = 4000` and `actual = L`; `display`,
`display_fast` and `display_base` issue zero bus writes before the error,
while `display_partial` first issues its reset and reconfiguration
sequence (reset pulse, border waveform, driver output control, data entry
mode, window, cursor) and only then fails. -/
theorem C1_buffer_size (image : List Nat) (busy : List Bool)
    (h : image.length ≠ 4000) :
    Epd2in13V4.display image busy =
      ([], some (EpdError.BufferSize 4000 image.length)) ∧
    Epd2in13V4.display_fast image busy =
      ([], some (EpdError.BufferSize 4000 image.length)) ∧
    Epd2in13V4.display_base image busy =
      ([], some (EpdError.BufferSize 4000 image.length)) ∧
    Epd2in13V4.display_partial image busy =
      ([BusEvent.rst true, BusEvent.sleepMs 20, BusEvent.rst false,
        BusEvent.sleepMs 2, BusEvent.rst true, BusEvent.sleepMs 20,
        BusEvent.dc false, BusEvent.spi [0x3C],
        BusEvent.dc true, BusEvent.spi [0x80],
        BusEvent.dc false, BusEvent.spi [0x01],
        BusEvent.dc true, BusEvent.spi [0xF9, 0x00, 0x00],
        BusEvent.dc false, BusEvent.spi [0x11],
        BusEvent.dc true, BusEvent.spi [0x03],
        BusEvent.dc false, BusEvent.spi [0x44],
        BusEvent.dc true, BusEvent.spi [0x00, 0x0F],
        BusEvent.dc false, BusEvent.spi [0x45],
        BusEvent.dc true, BusEvent.spi [0x00, 0x00, 0xF9, 0x00],
        BusEvent.dc false, BusEvent.spi [0x4E],
        BusEvent.dc true, BusEvent.spi [0x00],
        BusEvent.dc false, BusEvent.spi [0x4F],
        BusEvent.dc true, BusEvent.spi [0x00, 0x00]],
        some (EpdError.BufferSize 4000 image.length)) := by
  have hw : ∀ c : Nat, Epd2in13V4.write_image c image =
      ([], some (EpdError.BufferSize 4000 image.length)) := by
    intro c
    unfold Epd2in13V4.write_image
    rw [if_pos]
    · simp [Epd2in13V4.bytes_per_row, Epd2in13V4.WIDTH, Epd2in13V4.HEIGHT]
    · simp [Epd2in13V4.bytes_per_row, Epd2in13V4.WIDTH, Epd2in13V4.HEIGHT, h]
  refine ⟨?_, ?_, ?_, ?_⟩
  · simp [Epd2in13V4.display, hw]
  · simp [Epd2in13V4.display_fast, hw]
  · simp [Epd2in13V4.display_base, hw]
  · simp [Epd2in13V4.display_partial, hw, Epd2in13V4.reset,
      Epd2in13V4.command, Epd2in13V4.dataWrite, Epd2in13V4.command_data,
      Epd2in13V4.set_window, Epd2in13V4.set_cursor,
      Epd2in13V4.WIDTH, Epd2in13V4.HEIGHT]

theorem C1_buffer_size_witness :
    (Epd2in13V4.display [0x00] [] =
      ([], some (EpdError.BufferSize 4000 1))) ∧
    (Epd2in13V4.display_fast [0x00] [] =
      ([], some (EpdError.BufferSize 4000 1))) ∧
    (Epd2in13V4.display_base [0x00] [] =
      ([], some (EpdError.BufferSize 4000 1))) ∧
    (Epd2in13V4.display_partial [0x00] [] =
      ([BusEvent.rst true, BusEvent.sleepMs 20, BusEvent.rst false,
        BusEvent.sleepMs 2, BusEvent.rst true, BusEvent.sleepMs 20,
        BusEvent.dc false, BusEvent.spi [0x3C],
        BusEvent.dc true, BusEvent.spi [0x80],
        BusEvent.dc false, BusEvent.spi [0x01],
        BusEvent.dc true, BusEvent.spi [0xF9, 0x00, 0x00],
        BusEvent.dc false, BusEvent.spi [0x11],
        BusEvent.dc true, BusEvent.spi [0x03],
        BusEvent.dc false, BusEvent.spi [0x44],
        BusEvent.dc true, BusEvent.spi [0x00, 0x0F],
        BusEvent.dc false, BusEvent.spi [0x45],
        BusEvent.dc true, BusEvent.spi [0x00, 0x00, 0xF9, 0x00],
        BusEvent.dc false, BusEvent.spi [0x4E],
        BusEvent.dc true, BusEvent.spi [0x00],
        BusEvent.dc false, BusEvent.spi [0x4F],
        BusEvent.dc true, BusEvent.spi [0x00, 0x00]],
        some (EpdError.BufferSize 4000 1))) :=
  C1_buffer_size [0x00] [] (by decide)

end Epd
